import Mathlib

/-!
Shallow embedding of the chat-agent message pipeline from `src/utils.ts`
(`processToolCalls`, `cleanupMessages`, `formatFlightResults`, `formatTime`,
`formatDuration`) together with the message/part data model from the AI SDK
that those functions consume, and proofs of the specification's claims
about them.

JavaScript runtime values flowing through the pipeline (tool inputs and
outputs, the `unknown` payload handed to `formatFlightResults`) are embedded
as the JSON-like type `Value`; `undefined` is represented by `Option.none`
at the points where a value may be absent.  Code that can throw a runtime
`TypeError` (property access on `undefined`/`null`, calling a string method
on a non-string) is embedded in `Except String`.
-/

namespace AgentPipeline

/-- JSON-like JavaScript value (a defined value; `undefined` is `Option.none`
at use sites). -/
inductive Value where
  | null : Value
  | bool (b : Bool) : Value
  | num (n : Int) : Value
  | str (s : String) : Value
  | arr (xs : List Value) : Value
  | obj (fields : List (String × Value)) : Value

/-- JavaScript truthiness of a defined value. -/
def jsTruthy : Value → Bool
  | .null => false
  | .bool b => b
  | .num n => n != 0
  | .str s => s != ""
  | .arr _ => true
  | .obj _ => true

/-- JavaScript truthiness of a possibly-`undefined` value (`undefined` is falsy). -/
def optTruthy : Option Value → Bool
  | none => false
  | some v => jsTruthy v

/-- Truthiness of an optional string field (`undefined` and `""` are falsy). -/
def strOptTruthy : Option String → Bool
  | none => false
  | some s => s != ""

/-- Field lookup in an object's field list (first binding wins, as in a JS
object literal, whose keys are unique anyway). -/
def lookupField : List (String × Value) → String → Option Value
  | [], _ => none
  | (k, v) :: fs, key => if k == key then some v else lookupField fs key

/-- Property read `v[key]` on a defined value that is known not to throw:
objects yield the field (or `undefined`), every other defined value yields
`undefined` (primitives and arrays have no own string-keyed properties that
this code ever hits). -/
def getField : Value → String → Option Value
  | .obj fs, key => lookupField fs key
  | _, _ => none

/-- States of a tool-call UI part in the AI SDK. -/
inductive PartState where
  | inputStreaming : PartState
  | inputAvailable : PartState
  | outputAvailable : PartState
  | outputError : PartState
deriving DecidableEq, Repr

/-- A static tool UI part: `type` is `"tool-" ++ toolName`, as produced by the
AI SDK; fields follow the runtime shape `processToolCalls`/`cleanupMessages`
inspect (`state`, `input`, `output`, `errorText`, `toolCallId`). -/
structure ToolPart where
  toolName : String
  toolCallId : String
  state : PartState
  input : Value
  output : Option Value
  errorText : Option String

/-- One part of a UI message.  `isStaticToolUIPart` is true exactly for the
`tool` constructor; `dynamicTool` covers dynamic tool parts and `text` covers
every other (non-tool) part kind, all of which the pipeline passes through
untouched. -/
inductive Part where
  | text (content : String) : Part
  | tool (tp : ToolPart) : Part
  | dynamicTool (tp : ToolPart) : Part

/-- Role of a UI message. -/
inductive Role where
  | user : Role
  | assistant : Role
  | system : Role
deriving DecidableEq, Repr

/-- A UI message.  `parts` is optional because `processToolCalls` and
`cleanupMessages` both defensively handle `!message.parts`. -/
structure Message where
  id : String
  role : Role
  metadata : Option Value
  parts : Option (List Part)

namespace APPROVAL

/-- Modelled from the spec: `src/shared.ts` (not present under `src/`) exports
the literal decision token `APPROVAL.YES` marking an approved tool call; the
spec calls it the APPROVED sentinel, compared by exact value equality against
a part's `output`. -/
def YES : String := "APPROVED"

/-- Modelled from the spec: `src/shared.ts` (not present under `src/`) exports
the literal decision token `APPROVAL.NO` marking a denied tool call; the spec
calls it the DENIED sentinel, compared by exact value equality against a
part's `output`. -/
def NO : String := "DENIED"

end APPROVAL

/-- Strict equality `part.output === s` of a possibly-`undefined` output
against a string literal. -/
def outputIs : Option Value → String → Bool
  | some (.str t), s => t == s
  | _, _ => false

/-- Context handed to an executor: the model-projected message list (of
abstract type `M`, since `convertToModelMessages` is the external AI SDK
projection) and the call id. -/
structure ToolCtx (M : Type) where
  messages : M
  toolCallId : String

/-- An executor from the execution registry (pure model of the async
executor: input and context to result). -/
def Executor (M : Type) : Type := Value → ToolCtx M → Value

/-- The execution registry: an object mapping tool names to executors.  A key
may be present but bound to a non-function (`undefined`), which the source
handles with its defensive `if (toolInstance)` check, hence `Option` in the
range. -/
def Registry (M : Type) : Type := List (String × Option (Executor M))

/-- Event written to the output channel (`dataStream.write` with type
`tool-output-available`). -/
structure StreamEvent where
  toolCallId : String
  output : Value

/-- Trace entry recording one executor invocation: which tool was invoked,
with which input and context, and what it returned. -/
structure ExecCall (M : Type) where
  toolName : String
  input : Value
  ctx : ToolCtx M
  result : Value

/-- Result of `processToolCalls`: the rewritten messages, the events written
to the output channel, and the trace of executor invocations. -/
structure ProcResult (M : Type) where
  messages : List Message
  events : List StreamEvent
  calls : List (ExecCall M)

/-- Body of the part-level λ inside `processToolCalls` (lines 43–92 of
`src/utils.ts`): returns the (possibly rewritten) part together with the
events written and executors invoked while processing it. -/
def processPart {M : Type} (executions : Registry M) (pm : M) (part : Part) :
    Part × List StreamEvent × List (ExecCall M) :=
  match part with
  | .tool tp =>
    -- `if (!(toolName in executions) || part.state !== "output-available") return part;`
    if (List.lookup tp.toolName executions).isSome ∧ tp.state = .outputAvailable then
      if outputIs tp.output APPROVAL.YES then
        match List.lookup tp.toolName executions with
        | none => (part, [], [])
        | some none =>
          let r := Value.str "Error: No execute function found on tool"
          (Part.tool { tp with output := some r }, [⟨tp.toolCallId, r⟩], [])
        | some (some ex) =>
          let ctx : ToolCtx M := ⟨pm, tp.toolCallId⟩
          let r := ex tp.input ctx
          (Part.tool { tp with output := some r }, [⟨tp.toolCallId, r⟩],
            [⟨tp.toolName, tp.input, ctx, r⟩])
      else if outputIs tp.output APPROVAL.NO then
        let r := Value.str "Error: User denied access to tool execution"
        (Part.tool { tp with output := some r }, [⟨tp.toolCallId, r⟩], [])
      else
        (part, [], [])
    else
      (part, [], [])
  | _ => (part, [], [])

/-- Sequential elaboration of `parts.map` inside `processToolCalls`
(the `Promise.all` over a message's parts), collecting events and calls in
part order. -/
def processParts {M : Type} (executions : Registry M) (pm : M) :
    List Part → List Part × List StreamEvent × List (ExecCall M)
  | [] => ([], [], [])
  | p :: ps =>
    let r := processPart executions pm p
    let rs := processParts executions pm ps
    (r.1 :: rs.1, r.2.1 ++ rs.2.1, r.2.2 ++ rs.2.2)

/-- Message-level step of `processToolCalls`: `if (!parts) return message;`
else rebuild the message with the processed parts. -/
def processMessage {M : Type} (executions : Registry M) (pm : M) (m : Message) :
    Message × List StreamEvent × List (ExecCall M) :=
  match m.parts with
  | none => (m, [], [])
  | some ps =>
    let r := processParts executions pm ps
    ({ m with parts := some r.1 }, r.2.1, r.2.2)

/-- Sequential elaboration of `messages.map` (the outer `Promise.all`). -/
def processMessagesList {M : Type} (executions : Registry M) (pm : M) :
    List Message → List Message × List StreamEvent × List (ExecCall M)
  | [] => ([], [], [])
  | m :: ms =>
    let r := processMessage executions pm m
    let rs := processMessagesList executions pm ms
    (r.1 :: rs.1, r.2.1 ++ rs.2.1, r.2.2 ++ rs.2.2)

/-- Embedding of `processToolCalls` from `src/utils.ts`.  `proj` is the
external `convertToModelMessages` projection, applied (as in the source) to
the whole input message list and passed to every executor's context. -/
def processToolCalls {M : Type} (messages : List Message) (executions : Registry M)
    (proj : List Message → M) : ProcResult M :=
  let pm := proj messages
  let r := processMessagesList executions pm messages
  ⟨r.1, r.2.1, r.2.2⟩

/-- Part-level test inside `cleanupMessages`: a static tool part still
streaming its input, or with input ready but no (truthy) output and no
(truthy) error text. -/
def isIncompleteToolCall : Part → Bool
  | .tool tp =>
    tp.state = PartState.inputStreaming ∨
      (tp.state = PartState.inputAvailable ∧
        optTruthy tp.output = false ∧ strOptTruthy tp.errorText = false)
  | _ => false

/-- Embedding of `cleanupMessages` from `src/utils.ts`: drop every message
containing at least one incomplete tool call. -/
def cleanupMessages (messages : List Message) : List Message :=
  messages.filter fun m =>
    match m.parts with
    | none => true
    | some ps => !(ps.any isIncompleteToolCall)

/-! String machinery used by the flight-result formatter.  JS string methods
(`split`, `match`, `trim`, template interpolation, `JSON.stringify`) are
embedded as structurally recursive functions on `List Char` so that concrete
scenarios evaluate inside the kernel. -/

/-- Boolean prefix test on character lists. -/
def isPrefixOfL : List Char → List Char → Bool
  | [], _ => true
  | _ :: _, [] => false
  | a :: as, b :: bs => a == b && isPrefixOfL as bs

/-- Fuel-driven core of `String.prototype.split` with a non-empty separator:
scans left to right, splitting at each non-overlapping occurrence.  Fuel at
least the length of the input is always sufficient since every step consumes
at least one character. -/
def splitOnGo (sep : List Char) : Nat → List Char → List (List Char)
  | _, [] => [[]]
  | 0, cs => [cs]
  | fuel + 1, c :: rest =>
    if isPrefixOfL sep (c :: rest) then
      [] :: splitOnGo sep fuel (List.drop (sep.length - 1) rest)
    else
      match splitOnGo sep fuel rest with
      | [] => [[c]]
      | g :: gs => (c :: g) :: gs

/-- `s.split(sep)` for a non-empty separator. -/
def splitOnSep (sep s : String) : List String :=
  (splitOnGo sep.data s.data.length s.data).map String.mk

/-- Substring occurrence test (used only to state claims about the produced
text, not part of the embedded program). -/
def strOccurs (pat s : String) : Bool :=
  let rec go (p : List Char) : List Char → Bool
    | [] => p.isEmpty
    | c :: rest => isPrefixOfL p (c :: rest) || go p rest
  go pat.data s.data

/-- Value of an all-digit character list, as `parseInt(·, 10)` computes it. -/
def digitsToNat (cs : List Char) : Nat :=
  cs.foldl (fun acc c => acc * 10 + (c.toNat - 48)) 0

/-- Attempt to match the regex `(\d{4})-(\d{2})-(\d{2})T(\d{2}):(\d{2})` at
the head of the list, returning the hour and minute capture groups. -/
def matchTimeAt : List Char → Option (String × String)
  | a :: b :: c :: d :: '-' :: e :: f :: '-' :: g :: h :: 'T' :: i :: j :: ':' :: k :: l :: _ =>
    if a.isDigit && b.isDigit && c.isDigit && d.isDigit && e.isDigit && f.isDigit &&
        g.isDigit && h.isDigit && i.isDigit && j.isDigit && k.isDigit && l.isDigit then
      some (String.mk [i, j], String.mk [k, l])
    else
      none
  | _ => none

/-- First match of the timestamp regex anywhere in the list (the semantics of
an unanchored `String.prototype.match`). -/
def findTime : List Char → Option (String × String)
  | [] => none
  | c :: rest =>
    match matchTimeAt (c :: rest) with
    | some r => some r
    | none => findTime rest

/-- Embedding of `formatTime` from `src/utils.ts`: a matched timestamp is
rendered on a 12-hour clock, an unmatched input is returned unchanged. -/
def formatTime (isoString : String) : String :=
  match findTime isoString.data with
  | none => isoString
  | some (hh, mm) =>
    let hour : Nat := digitsToNat hh.data
    let ampm := if hour ≥ 12 then "PM" else "AM"
    let hour12 : Nat := if hour % 12 == 0 then 12 else hour % 12
    toString hour12 ++ ":" ++ mm ++ " " ++ ampm

/-- Suffix following the first occurrence of the literal `PT` (the regex
`/PT(?:(\d+)H)?(?:(\d+)M)?/` begins with that literal). -/
def findPT : List Char → Option (List Char)
  | 'P' :: 'T' :: rest => some rest
  | _ :: rest => findPT rest
  | [] => none

/-- Longest digit run at the head of the list, with the remainder. -/
def takeDigitsL : List Char → List Char × List Char
  | [] => ([], [])
  | c :: cs =>
    if c.isDigit then
      let r := takeDigitsL cs
      (c :: r.1, r.2)
    else
      ([], c :: cs)

/-- Capture groups of `(?:(\d+)H)?(?:(\d+)M)?` right after the matched `PT`:
each optional group takes a non-empty digit run immediately followed by its
unit letter, and a failed optional consumes nothing. -/
def parsePTGroups (cs : List Char) : Option (List Char) × Option (List Char) :=
  let d1 := takeDigitsL cs
  if d1.1.isEmpty then
    (none, none)
  else
    match d1.2 with
    | 'H' :: r2 =>
      let d2 := takeDigitsL r2
      if d2.1.isEmpty then
        (some d1.1, none)
      else
        match d2.2 with
        | 'M' :: _ => (some d1.1, some d2.1)
        | _ => (some d1.1, none)
    | 'M' :: _ => (none, some d1.1)
    | _ => (none, none)

/-- Space-trimming as `String.prototype.trim` behaves on the strings this
code builds (only ordinary spaces can appear at the ends). -/
def jsTrim (s : String) : String :=
  String.mk (((s.data.dropWhile (fun c => c == ' ')).reverse.dropWhile
    (fun c => c == ' ')).reverse)

/-- Embedding of `formatDuration` from `src/utils.ts`: an input containing
`PT` is rendered as `<H>h <M>m` (trimmed), anything else is returned
unchanged. -/
def formatDuration (isoDuration : String) : String :=
  match findPT isoDuration.data with
  | none => isoDuration
  | some rest =>
    let g := parsePTGroups rest
    let hours := match g.1 with
      | some ds => String.mk ds ++ "h"
      | none => ""
    let minutes := match g.2 with
      | some ds => String.mk ds ++ "m"
      | none => ""
    jsTrim (hours ++ " " ++ minutes)

/-- JSON string escaping for the characters that matter here. -/
def escapeChar (c : Char) : String :=
  if c == '"' then "\\\""
  else if c == '\\' then "\\\\"
  else if c == '\n' then "\\n"
  else String.singleton c

/-- Escape a string for inclusion in JSON output. -/
def escapeString (s : String) : String :=
  String.join (s.data.map escapeChar)

mutual

/-- `JSON.stringify` on defined values. -/
def jsonStringify : Value → String
  | .null => "null"
  | .bool true => "true"
  | .bool false => "false"
  | .num n => toString n
  | .str s => "\"" ++ escapeString s ++ "\""
  | .arr xs => "[" ++ jsonStringifyList xs ++ "]"
  | .obj fs => "\x7b" ++ jsonStringifyFields fs ++ "\x7d"

/-- Comma-joined serialization of array elements. -/
def jsonStringifyList : List Value → String
  | [] => ""
  | [v] => jsonStringify v
  | v :: vs => jsonStringify v ++ "," ++ jsonStringifyList vs

/-- Comma-joined serialization of object fields. -/
def jsonStringifyFields : List (String × Value) → String
  | [] => ""
  | [(k, v)] => "\"" ++ escapeString k ++ "\":" ++ jsonStringify v
  | (k, v) :: fs =>
    "\"" ++ escapeString k ++ "\":" ++ jsonStringify v ++ "," ++ jsonStringifyFields fs

end

mutual

/-- JS string conversion of a defined value, as template-literal
interpolation performs it. -/
def jsToString : Value → String
  | .null => "null"
  | .bool true => "true"
  | .bool false => "false"
  | .num n => toString n
  | .str s => s
  | .arr xs => jsToStringList xs
  | .obj _ => "[object Object]"

/-- `Array.prototype.toString`, i.e. `join(",")`. -/
def jsToStringList : List Value → String
  | [] => ""
  | [v] => jsToStringElem v
  | v :: vs => jsToStringElem v ++ "," ++ jsToStringList vs

/-- One element under `Array.prototype.join`: `null` renders as the empty
string, everything else by ordinary string conversion. -/
def jsToStringElem : Value → String
  | .null => ""
  | .bool true => "true"
  | .bool false => "false"
  | .num n => toString n
  | .str s => s
  | .arr xs => jsToStringList xs
  | .obj _ => "[object Object]"

end

/-- Interpolation of a possibly-`undefined` value in a template literal. -/
def toJSStringOpt : Option Value → String
  | none => "undefined"
  | some v => jsToString v

/-- Property read on a defined value, as `Except`: reading off `null`
throws, objects yield the field (or `undefined`), other values yield
`undefined`. -/
def jsAccess (v : Value) (key : String) : Except String (Option Value) :=
  match v with
  | .null => .error ("TypeError: Cannot read properties of null (reading " ++ key ++ ")")
  | .obj fs => .ok (lookupField fs key)
  | _ => .ok none

/-- Property read on a possibly-`undefined` value: reading off `undefined`
throws. -/
def accessOpt (v : Option Value) (key : String) : Except String (Option Value) :=
  match v with
  | none => .error ("TypeError: Cannot read properties of undefined (reading " ++ key ++ ")")
  | some w => jsAccess w key

/-- The JS idiom `x || dflt`. -/
def defaultIfFalsy (v : Option Value) (dflt : Value) : Value :=
  match v with
  | some w => if jsTruthy w then w else dflt
  | none => dflt

/-- Optional chain `x?.[0]`: `undefined`/`null` propagate as `undefined`,
arrays index their head, strings index their first character. -/
def optChainIndex0 : Option Value → Option Value
  | none => none
  | some .null => none
  | some (.arr xs) => xs.head?
  | some (.str s) =>
    match s.data with
    | [] => none
    | c :: _ => some (.str (String.singleton c))
  | some _ => none

/-- Plain `x[0]` on a defined value (used on the defaulted `segments`). -/
def valueIndex0 : Value → Option Value
  | .arr xs => xs.head?
  | .str s =>
    match s.data with
    | [] => none
    | c :: _ => some (.str (String.singleton c))
  | _ => none

/-- The `length` property: arrays and strings have one, other values yield
`undefined`. -/
def jsLength : Value → Option Int
  | .arr xs => some (xs.length : Int)
  | .str s => some (s.length : Int)
  | _ => none

/-- Interpolated `x.length`. -/
def jsLengthStr (v : Value) : String :=
  match jsLength v with
  | some n => toString n
  | none => "undefined"

/-- `for (const x of v)`: arrays iterate their elements, strings their
characters, anything else (truthy and non-iterable) throws. -/
def jsForOf (v : Value) : Except String (List Value) :=
  match v with
  | .arr xs => .ok xs
  | .str s => .ok (s.data.map fun c => Value.str (String.singleton c))
  | _ => .error "TypeError: value is not iterable"

/-- Embeds `formatTime(x.split(\" at \")[1] || x)` for a segment's
`departure`/`arrival` field `x`: non-strings throw at the `split` call. -/
def splitAtTimeOf (v : Option Value) : Except String String :=
  match v with
  | some (.str s) =>
    let ps := splitOnSep " at " s
    let arg := match ps.get? 1 with
      | some t => if t == "" then s else t
      | none => s
    .ok (formatTime arg)
  | some .null => .error "TypeError: Cannot read properties of null (reading split)"
  | none => .error "TypeError: Cannot read properties of undefined (reading split)"
  | some _ => .error "TypeError: split is not a function"

/-- Embeds `formatDuration(x)` for a duration field `x` flowing in from the
data: inside `formatDuration`, `isoDuration.match` throws unless `x` is a
string. -/
def formatDurationOf (v : Option Value) : Except String String :=
  match v with
  | some (.str s) => .ok (formatDuration s)
  | some .null => .error "TypeError: Cannot read properties of null (reading match)"
  | none => .error "TypeError: Cannot read properties of undefined (reading match)"
  | some _ => .error "TypeError: match is not a function"

/-- Price rendering from lines 170 of `src/utils.ts`:
`(offer.price.currency === "EUR" ? "€" : "$") + offer.price.total`; a
missing or `null` price throws at the `currency` read. -/
def renderPrice (priceF : Option Value) : Except String String := do
  let curF ← accessOpt priceF "currency"
  let sym := match curF with
    | some (.str c) => if c == "EUR" then "€" else "$"
    | _ => "$"
  let totF ← accessOpt priceF "total"
  .ok (sym ++ toJSStringOpt totF)

/-- One segment line of the multi-segment branch (lines 190–200). -/
def processSeg (seg : Value) : Except String String := do
  let depF ← jsAccess seg "departure"
  let depTime ← splitAtTimeOf depF
  let arrF ← jsAccess seg "arrival"
  let arrTime ← splitAtTimeOf arrF
  let fnF ← jsAccess seg "flightNumber"
  let durF ← jsAccess seg "duration"
  let durStr ← formatDurationOf durF
  .ok ("  " ++ toJSStringOpt fnF ++ ": " ++ depTime ++ " → " ++ arrTime ++ " (" ++ durStr ++ ")")

/-- All segment lines, in order. -/
def processSegs : List Value → Except String (List String)
  | [] => .ok []
  | sg :: rest => do
    let l ← processSeg sg
    let ls ← processSegs rest
    .ok (l :: ls)

/-- One itinerary of an offer (lines 172–205): nonstop branch when the
(defaulted) segment list has length exactly one, multi-segment branch
otherwise. -/
def processItin (airlineName priceStr seatsStr : String) (itin : Value) :
    Except String (List String) := do
  let durF ← jsAccess itin "duration"
  let totalDuration ← formatDurationOf durF
  let segsF ← jsAccess itin "segments"
  let segments : Value := defaultIfFalsy segsF (.arr [])
  if jsLength segments == some (1 : Int) then
    match valueIndex0 segments with
    | some seg => do
      let depF ← jsAccess seg "departure"
      let depTime ← splitAtTimeOf depF
      let arrF ← jsAccess seg "arrival"
      let arrTime ← splitAtTimeOf arrF
      let fnF ← jsAccess seg "flightNumber"
      .ok ["• " ++ airlineName ++ " " ++ toJSStringOpt fnF ++ " - " ++ priceStr,
        "  Departs: " ++ depTime ++ " → Arrives: " ++ arrTime ++ " (" ++ totalDuration ++ ", nonstop)",
        "  Seats available: " ++ seatsStr,
        ""]
    | none => .error "TypeError: Cannot read properties of undefined (reading departure)"
  else do
    let stopsStr := jsLengthStr segments
    let head := "• " ++ airlineName ++ " - " ++ priceStr ++ " (" ++ stopsStr ++ " stops)"
    let segList ← jsForOf segments
    let segLines ← processSegs segList
    .ok (head :: (segLines ++
      ["  Total duration: " ++ totalDuration, "  Seats available: " ++ seatsStr, ""]))

/-- All itineraries of an offer, in order. -/
def processItins (airlineName priceStr seatsStr : String) :
    List Value → Except String (List String)
  | [] => .ok []
  | it :: rest => do
    let ls ← processItin airlineName priceStr seatsStr it
    let more ← processItins airlineName priceStr seatsStr rest
    .ok (ls ++ more)

/-- One offer (lines 167–205): airline code and name, price, then all
itineraries; the seats figure is interpolated from `offer.seatsAvailable`. -/
def processOffer (carriers : Value) (offer : Value) : Except String (List String) := do
  let airlinesF ← jsAccess offer "airlines"
  let airlineCode : Value := defaultIfFalsy (optChainIndex0 airlinesF) (.str "Unknown")
  let airlineName : Value := defaultIfFalsy (getField carriers (jsToString airlineCode)) airlineCode
  let priceF ← jsAccess offer "price"
  let priceStr ← renderPrice priceF
  let itinsF ← jsAccess offer "itineraries"
  let itins ← jsForOf (defaultIfFalsy itinsF (.arr []))
  let seatsF ← jsAccess offer "seatsAvailable"
  processItins (jsToString airlineName) priceStr (toJSStringOpt seatsF) itins

/-- All offers, in order. -/
def processOffers (carriers : Value) : List Value → Except String (List String)
  | [] => .ok []
  | o :: rest => do
    let ls ← processOffer carriers o
    let more ← processOffers carriers rest
    .ok (ls ++ more)

/-- `typeof data === "object" && data !== null` (arrays and objects). -/
def isObjLike : Value → Bool
  | .arr _ => true
  | .obj _ => true
  | _ => false

/-- The validated `offers` array, when present. -/
def getOffers (data : Value) : Option (List Value) :=
  match getField data "offers" with
  | some (.arr xs) => some xs
  | _ => none

/-- `flightData.dictionaries?.carriers || {}`. -/
def getCarriers (data : Value) : Value :=
  let c : Option Value :=
    match getField data "dictionaries" with
    | some (.obj fs) => lookupField fs "carriers"
    | _ => none
  defaultIfFalsy c (.obj [])

/-- `flightData.totalOffers || flightData.offers.length`, interpolated. -/
def flightsCountStr (data : Value) (offers : List Value) : String :=
  match getField data "totalOffers" with
  | some v => if jsTruthy v then jsToString v else toString offers.length
  | none => toString offers.length

/-- `lines.join("\n")`. -/
def joinNL : List String → String
  | [] => ""
  | [l] => l
  | l :: ls => l ++ "\n" ++ joinNL ls

/-- Embedding of `formatFlightResults` from `src/utils.ts`.  A thrown
`TypeError` is an `Except.error`. -/
def formatFlightResults (data : Value) : Except String String :=
  if isObjLike data then
    match getOffers data with
    | none => .ok (jsonStringify data)
    | some offers =>
      let carriers := getCarriers data
      let headLine := "Found " ++ flightsCountStr data offers ++ " flights:\n"
      match processOffers carriers offers with
      | .error e => .error e
      | .ok offerLines => .ok (joinNL (headLine :: offerLines))
  else
    .ok (jsonStringify data)

/-- Boolean capture of the conditions under which `processToolCalls` leaves a
part untouched: not a static tool part, tool name absent from the registry,
state other than `output-available`, or an output that is neither decision
sentinel. -/
def skipsResolution {M : Type} (executions : Registry M) : Part → Bool
  | .tool tp =>
    !(List.lookup tp.toolName executions).isSome
      || !(tp.state == PartState.outputAvailable)
      || (!outputIs tp.output APPROVAL.YES && !outputIs tp.output APPROVAL.NO)
  | _ => true

/-- Written from the spec's words for the sanitizer (claim C4): a static
tool-call part still in `input-streaming` state, or in `input-available`
state with neither an `output` nor an `errorText` set. -/
def specIncompletePart : Part → Bool
  | .tool tp =>
    tp.state == PartState.inputStreaming
      || (tp.state == PartState.inputAvailable && tp.output.isNone && tp.errorText.isNone)
  | _ => false

/-- The sanitizer the spec's words describe: remove exactly the messages
containing at least one `specIncompletePart`. -/
def cleanupMessagesSpec (messages : List Message) : List Message :=
  messages.filter fun m =>
    match m.parts with
    | none => true
    | some ps => !(ps.any specIncompletePart)

/-- Written from the amended spec words for claim C4: as `specIncompletePart`
but treating a falsy (empty-string, zero, `false`, `null`) output or error
text the way the code's truthiness test does, i.e. as not set. -/
def specIncompletePartAmended : Part → Bool
  | .tool tp =>
    tp.state == PartState.inputStreaming
      || (tp.state == PartState.inputAvailable
            && !optTruthy tp.output && !strOptTruthy tp.errorText)
  | _ => false

/-- The sanitizer under the amended reading of claim C4. -/
def cleanupMessagesSpecAmended (messages : List Message) : List Message :=
  messages.filter fun m =>
    match m.parts with
    | none => true
    | some ps => !(ps.any specIncompletePartAmended)

/-- Relation between an input part and its processed counterpart: unchanged,
or a tool part with only its `output` field replaced. -/
def partSimilar (p q : Part) : Prop :=
  q = p ∨ ∃ (tp : ToolPart) (r : Value), p = .tool tp ∧ q = .tool { tp with output := some r }

/-- Relation between an input message and its processed counterpart: same
id, role and metadata, and either wholly unchanged or with a part list
related pointwise by `partSimilar`. -/
def msgSimilar (m m2 : Message) : Prop :=
  m2.id = m.id ∧ m2.role = m.role ∧ m2.metadata = m.metadata ∧
    (m2 = m ∨ ∃ ps ps2, m.parts = some ps ∧ m2.parts = some ps2 ∧
      List.Forall₂ partSimilar ps ps2)

/-! Concrete scenarios from the spec's testable properties. -/

/-- Scenario A executor: `getWeather` returning `"22C, sunny"`. -/
def scenarioExecA : Executor Unit := fun _ _ => Value.str "22C, sunny"

/-- Scenario A registry: `getWeather` mapped to `scenarioExecA`. -/
def scenarioRegA : Registry Unit := [("getWeather", some scenarioExecA)]

/-- Scenario A tool part: `getWeather`, `output-available`, output APPROVED,
input `\x7bcity: "Paris"\x7d`. -/
def scenarioToolPartA : ToolPart :=
  ⟨"getWeather", "call-1", .outputAvailable, .obj [("city", .str "Paris")],
    some (.str APPROVAL.YES), none⟩

/-- Scenario A message. -/
def scenarioMsgA : Message := ⟨"m1", .assistant, none, some [.tool scenarioToolPartA]⟩

/-- Trivial model-message projection used to instantiate the abstract
projection type in concrete scenarios. -/
def projUnit : List Message → Unit := fun _ => ()

/-- Scenario B tool part: as scenario A but with output DENIED. -/
def scenarioToolPartB : ToolPart :=
  ⟨"getWeather", "call-2", .outputAvailable, .obj [("city", .str "Paris")],
    some (.str APPROVAL.NO), none⟩

/-- Scenario B message. -/
def scenarioMsgB : Message := ⟨"m2", .assistant, none, some [.tool scenarioToolPartB]⟩

/-- A tool part already holding a genuine (non-sentinel) output. -/
def genuineOutputPart : ToolPart :=
  ⟨"getWeather", "call-3", .outputAvailable, .obj [("city", .str "Paris")],
    some (.str "22C, sunny"), none⟩

/-- Scenario C message: contains a tool-call part still in `input-streaming`
state. -/
def scenarioMsgC : Message :=
  ⟨"m3", .assistant, none, some [.tool ⟨"getWeather", "call-4", .inputStreaming, .null, none, none⟩]⟩

/-- An ordinary message the sanitizer keeps. -/
def plainMsg : Message := ⟨"m4", .user, none, some [.text "hi"]⟩

/-- A message whose tool part is in `input-available` state with its output
set to the empty string — set, but falsy. -/
def emptyOutputMsg : Message :=
  ⟨"m5", .assistant, none,
    some [.tool ⟨"getWeather", "call-5", .inputAvailable, .null, some (.str ""), none⟩]⟩

/-- Scenario D input to the flight-result transformer. -/
def flightDataD : Value := .obj [
  ("totalOffers", .num 1),
  ("offers", .arr [.obj [
    ("offerId", .str "1"),
    ("price", .obj [("total", .str "100"), ("currency", .str "EUR")]),
    ("airlines", .arr [.str "AB"]),
    ("itineraries", .arr [.obj [
      ("duration", .str "PT2H30M"),
      ("segments", .arr [.obj [
        ("departure", .str "CDG at 2024-01-01T09:00"),
        ("arrival", .str "ORY at 2024-01-01T11:30"),
        ("carrier", .str "AB"),
        ("flightNumber", .str "AB123"),
        ("duration", .str "PT2H30M"),
        ("stops", .num 0)
      ]])
    ]]),
    ("seatsAvailable", .num 3)
  ]]),
  ("dictionaries", .obj [("carriers", .obj [("AB", .str "Air Bravo")])])
]

/-- The text the transformer produces on scenario D. -/
def flightOutD : String :=
  "Found 1 flights:\n\n• Air Bravo AB123 - €100\n  Departs: 9:00 AM → Arrives: 11:30 AM (2h 30m, nonstop)\n  Seats available: 3\n"

/-- Scenario D with currency `GBP` instead of `EUR`. -/
def flightDataGBP : Value := .obj [
  ("totalOffers", .num 1),
  ("offers", .arr [.obj [
    ("offerId", .str "1"),
    ("price", .obj [("total", .str "100"), ("currency", .str "GBP")]),
    ("airlines", .arr [.str "AB"]),
    ("itineraries", .arr [.obj [
      ("duration", .str "PT2H30M"),
      ("segments", .arr [.obj [
        ("departure", .str "CDG at 2024-01-01T09:00"),
        ("arrival", .str "ORY at 2024-01-01T11:30"),
        ("carrier", .str "AB"),
        ("flightNumber", .str "AB123"),
        ("duration", .str "PT2H30M"),
        ("stops", .num 0)
      ]])
    ]]),
    ("seatsAvailable", .num 3)
  ]]),
  ("dictionaries", .obj [("carriers", .obj [("AB", .str "Air Bravo")])])
]

/-- The text the transformer produces on the GBP variant. -/
def flightOutGBP : String :=
  "Found 1 flights:\n\n• Air Bravo AB123 - $100\n  Departs: 9:00 AM → Arrives: 11:30 AM (2h 30m, nonstop)\n  Seats available: 3\n"

/-- An offers list containing an offer with no `price` field. -/
def offerMissingPrice : Value := .obj [("offers", .arr [.obj []])]

/-! Helper lemmas shared by the claim theorems. -/

theorem processPart_nil_registry {M : Type} (pm : M) (part : Part) :
    processPart ([] : Registry M) pm part = (part, [], []) := by
  cases part with
  | text s => rfl
  | dynamicTool tp => rfl
  | tool tp => simp [processPart, List.lookup]

theorem processParts_nil_registry {M : Type} (pm : M) (ps : List Part) :
    processParts ([] : Registry M) pm ps = (ps, [], []) := by
  induction ps with
  | nil => rfl
  | cons p ps ih => simp [processParts, processPart_nil_registry, ih]

theorem processMessage_nil_registry {M : Type} (pm : M) (m : Message) :
    processMessage ([] : Registry M) pm m = (m, [], []) := by
  cases m with
  | mk i r md parts =>
    cases parts with
    | none => rfl
    | some ps => simp [processMessage, processParts_nil_registry]

theorem processPart_not_registered {M : Type} (executions : Registry M) (pm : M)
    (tp : ToolPart) (hL : (List.lookup tp.toolName executions).isSome = false) :
    processPart executions pm (.tool tp) = (.tool tp, [], []) := by
  simp [processPart, hL]

theorem processPart_not_output_available {M : Type} (executions : Registry M) (pm : M)
    (tp : ToolPart) (hS : tp.state ≠ .outputAvailable) :
    processPart executions pm (.tool tp) = (.tool tp, [], []) := by
  simp [processPart, hS]

theorem processPart_no_sentinel {M : Type} (executions : Registry M) (pm : M)
    (tp : ToolPart) (hY : outputIs tp.output APPROVAL.YES = false)
    (hN : outputIs tp.output APPROVAL.NO = false) :
    processPart executions pm (.tool tp) = (.tool tp, [], []) := by
  simp [processPart, hY, hN]

theorem isIncomplete_eq_amended : isIncompleteToolCall = specIncompletePartAmended := by
  funext p
  cases p with
  | text s => rfl
  | dynamicTool tp => rfl
  | tool tp =>
    cases tp with
    | mk tn cid st inp out et =>
      cases st <;>
        cases hout : optTruthy out <;>
          cases het : strOptTruthy et <;>
            simp [isIncompleteToolCall, specIncompletePartAmended, hout, het]

/-! Claim theorems. -/

/-- C10: with an empty execution registry, the approval resolver returns the
input message list unchanged (no part's output changes), writes no events to
the output channel, and invokes no executor — the behaviour the remote-tool
agent variant relies on by always passing `executions: \x7b\x7d`. -/
theorem processToolCalls_empty_registry_identity {M : Type}
    (messages : List Message) (proj : List Message → M) :
    processToolCalls messages ([] : Registry M) proj = ⟨messages, [], []⟩ := by
  have h : ∀ (pm : M) (ms : List Message),
      processMessagesList ([] : Registry M) pm ms = (ms, [], []) := by
    intro pm ms
    induction ms with
    | nil => rfl
    | cons m ms ih => simp [processMessagesList, processMessage_nil_registry, ih]
  simp [processToolCalls, h]

/-- C5: the sanitizer is idempotent — applying `cleanupMessages` twice yields
the same list as applying it once. -/
theorem cleanupMessages_idempotent (messages : List Message) :
    cleanupMessages (cleanupMessages messages) = cleanupMessages messages := by
  have h : ∀ (p : Message → Bool) (l : List Message), (l.filter p).filter p = l.filter p := by
    intro p l
    rw [List.filter_filter]
    simp
  exact h _ _

/-- C4 counterexample: a message whose tool-call part is in `input-available`
state with its output set to the empty string is removed by the code's
sanitizer, although the claim (output and errorText both unset) would keep
it — the code tests JS truthiness, not presence. -/
theorem cleanupMessages_removes_set_but_falsy_output :
    cleanupMessages [emptyOutputMsg] = [] ∧
    cleanupMessagesSpec [emptyOutputMsg] = [emptyOutputMsg] := ⟨rfl, rfl⟩

/-- C4 (amended): the sanitizer removes exactly the messages containing at
least one static tool-call part in `input-streaming` state, or in
`input-available` state with no truthy output and no truthy error text (an
unset or falsy value, such as the empty string, counts as not set); all
other messages are kept unchanged and in order, and in scenario C the
message holding an `input-streaming` part is removed entirely. -/
theorem cleanupMessages_eq_spec_amended :
    (∀ messages : List Message, cleanupMessages messages = cleanupMessagesSpecAmended messages) ∧
    cleanupMessages [scenarioMsgC, plainMsg] = [plainMsg] := by
  constructor
  · intro messages
    unfold cleanupMessages cleanupMessagesSpecAmended
    rw [isIncomplete_eq_amended]
  · rfl

/-- C7 counterexample: an offer with no `price` field makes the transformer
throw a `TypeError` (reading `currency` of `undefined`) rather than degrade
to printing the raw structured value. -/
theorem formatFlightResults_missing_price_throws :
    formatFlightResults offerMissingPrice =
      .error "TypeError: Cannot read properties of undefined (reading currency)" := rfl

/-- C7 (amended): the transformer degrades to the JSON serialization of the
raw value, without throwing, for any input that is not an object or whose
`offers` field is not an array, and unparseable timestamps and durations are
passed through unchanged; but an offer whose `price` field is missing makes
it throw a `TypeError` instead of degrading. -/
theorem formatFlightResults_degrades_outside_offers :
    (∀ v : Value, isObjLike v = false → formatFlightResults v = .ok (jsonStringify v)) ∧
    (∀ v : Value, getOffers v = none → formatFlightResults v = .ok (jsonStringify v)) ∧
    (∀ s : String, findTime s.data = none → formatTime s = s) ∧
    (∀ s : String, findPT s.data = none → formatDuration s = s) ∧
    formatFlightResults offerMissingPrice =
      .error "TypeError: Cannot read properties of undefined (reading currency)" := by
  refine ⟨?_, ?_, ?_, ?_, rfl⟩
  · intro v h
    simp [formatFlightResults, h]
  · intro v h
    by_cases hobj : isObjLike v <;> simp [formatFlightResults, hobj, h]
  · intro s h
    simp [formatTime, h]
  · intro s h
    simp [formatDuration, h]

/-- Witness for C7 (amended): a plain number degrades to its JSON
serialization. -/
theorem formatFlightResults_degrades_witness :
    formatFlightResults (Value.num 5) = .ok "5" := by
  have h := formatFlightResults_degrades_outside_offers.1 (Value.num 5) rfl
  simpa using h

/-- C8 counterexample: on the scenario D input the transformer's output does
not contain the substring `9:00 AM → 11:30 AM` — the departure and arrival
times are separated by the words `Departs:` and `Arrives:`. -/
theorem formatFlightResults_scenarioD_no_bare_arrow :
    formatFlightResults flightDataD = .ok flightOutD ∧
    strOccurs "9:00 AM → 11:30 AM" flightOutD = false := ⟨rfl, rfl⟩

/-- C8 (amended): on the scenario D input the transformer's output includes
the substrings `Found 1 flights:`, `Air Bravo AB123 - €100`,
`Departs: 9:00 AM → Arrives: 11:30 AM` (rather than `9:00 AM → 11:30 AM`),
`2h 30m, nonstop`, and `Seats available: 3`. -/
theorem formatFlightResults_scenarioD_substrings :
    formatFlightResults flightDataD = .ok flightOutD ∧
    strOccurs "Found 1 flights:" flightOutD = true ∧
    strOccurs "Air Bravo AB123 - €100" flightOutD = true ∧
    strOccurs "Departs: 9:00 AM → Arrives: 11:30 AM" flightOutD = true ∧
    strOccurs "2h 30m, nonstop" flightOutD = true ∧
    strOccurs "Seats available: 3" flightOutD = true :=
  ⟨rfl, rfl, rfl, rfl, rfl, rfl⟩

/-- C9 counterexample: an offer with currency `GBP` is rendered with the
dollar sign (`$100`), and the raw code `GBP` appears nowhere in the output —
the code tests only for `EUR` and falls back to `$`. -/
theorem formatFlightResults_gbp_uses_dollar :
    formatFlightResults flightDataGBP = .ok flightOutGBP ∧
    strOccurs "GBP" flightOutGBP = false ∧
    strOccurs "$100" flightOutGBP = true := ⟨rfl, rfl, rfl⟩

/-- C9 (amended): the rendered price uses the symbol `€` when the currency
code is exactly `EUR` and the symbol `$` for every other currency; in
particular a `GBP` offer is rendered with `$`, not with the raw code. -/
theorem renderPrice_eur_symbol_else_dollar :
    (∀ c t : String,
      renderPrice (some (.obj [("total", .str t), ("currency", .str c)])) =
        .ok ((if c == "EUR" then "€" else "$") ++ t)) ∧
    formatFlightResults flightDataGBP = .ok flightOutGBP := by
  refine ⟨?_, rfl⟩
  intro c t
  rfl

/-- C1: for every static tool-call part whose tool name is mapped to an
executor in the registry, whose state is `output-available`, and whose
output equals the APPROVED sentinel, the resolver invokes that executor
exactly once, passing the part's original input and a context holding the
model-projected message list and the call id; the part's output becomes the
executor's result and exactly one event carrying the call id and result is
written.  In scenario A the resolved output is `"22C, sunny"` and exactly
that one event and one executor call occur. -/
theorem processToolCalls_approved_invokes_executor_once :
    (∀ (M : Type) (executions : Registry M) (pm : M) (tp : ToolPart) (ex : Executor M),
      List.lookup tp.toolName executions = some (some ex) →
      tp.state = .outputAvailable →
      tp.output = some (.str APPROVAL.YES) →
      processPart executions pm (.tool tp) =
        (Part.tool { tp with output := some (ex tp.input ⟨pm, tp.toolCallId⟩) },
          [⟨tp.toolCallId, ex tp.input ⟨pm, tp.toolCallId⟩⟩],
          [⟨tp.toolName, tp.input, ⟨pm, tp.toolCallId⟩, ex tp.input ⟨pm, tp.toolCallId⟩⟩])) ∧
    processToolCalls [scenarioMsgA] scenarioRegA projUnit =
      ⟨[⟨"m1", .assistant, none,
          some [.tool { scenarioToolPartA with output := some (.str "22C, sunny") }]⟩],
        [⟨"call-1", .str "22C, sunny"⟩],
        [⟨"getWeather", .obj [("city", .str "Paris")], ⟨(), "call-1"⟩, .str "22C, sunny"⟩]⟩ := by
  refine ⟨?_, rfl⟩
  intro M executions pm tp ex hlook hstate hout
  simp [processPart, hlook, hstate, hout, outputIs]

/-- Witness for C1: the general statement instantiated at scenario A's part
and registry. -/
theorem processToolCalls_approved_witness :
    processPart scenarioRegA () (.tool scenarioToolPartA) =
      (Part.tool { scenarioToolPartA with output := some (.str "22C, sunny") },
        [⟨"call-1", .str "22C, sunny"⟩],
        [⟨"getWeather", .obj [("city", .str "Paris")], ⟨(), "call-1"⟩, .str "22C, sunny"⟩]) :=
  processToolCalls_approved_invokes_executor_once.1 Unit scenarioRegA () scenarioToolPartA
    scenarioExecA rfl rfl rfl

/-- C2: for every static tool-call part whose tool name is in the registry,
whose state is `output-available`, and whose output equals the DENIED
sentinel, the resolver invokes no executor and replaces the output with the
fixed non-empty error string `"Error: User denied access to tool execution"`
(which begins with `Error:` and differs from both sentinels); scenario B
resolves accordingly with one event and an empty call trace. -/
theorem processToolCalls_denied_no_executor :
    (∀ (M : Type) (executions : Registry M) (pm : M) (tp : ToolPart),
      (List.lookup tp.toolName executions).isSome = true →
      tp.state = .outputAvailable →
      tp.output = some (.str APPROVAL.NO) →
      processPart executions pm (.tool tp) =
        (Part.tool { tp with output := some (.str "Error: User denied access to tool execution") },
          [⟨tp.toolCallId, .str "Error: User denied access to tool execution"⟩], [])) ∧
    "Error: User denied access to tool execution" ≠ "" ∧
    isPrefixOfL "Error:".data "Error: User denied access to tool execution".data = true ∧
    "Error: User denied access to tool execution" ≠ APPROVAL.YES ∧
    "Error: User denied access to tool execution" ≠ APPROVAL.NO ∧
    processToolCalls [scenarioMsgB] scenarioRegA projUnit =
      ⟨[⟨"m2", .assistant, none,
          some [.tool { scenarioToolPartB with output := some (.str "Error: User denied access to tool execution") }]⟩],
        [⟨"call-2", .str "Error: User denied access to tool execution"⟩], []⟩ := by
  refine ⟨?_, by decide, rfl, by decide, by decide, rfl⟩
  intro M executions pm tp hlook hstate hout
  simp [processPart, hlook, hstate, hout, outputIs, APPROVAL.YES, APPROVAL.NO]

/-- Witness for C2: the general statement instantiated at scenario B's part
and registry. -/
theorem processToolCalls_denied_witness :
    processPart scenarioRegA () (.tool scenarioToolPartB) =
      (Part.tool { scenarioToolPartB with output := some (.str "Error: User denied access to tool execution") },
        [⟨"call-2", .str "Error: User denied access to tool execution"⟩], []) :=
  processToolCalls_denied_no_executor.1 Unit scenarioRegA () scenarioToolPartB rfl rfl rfl

/-- C3: every part that is not a static tool part, or whose tool name is
absent from the registry, or whose state is not `output-available`, or whose
output is neither decision sentinel (a genuine result, or no decision yet)
is returned unchanged with no event written and no executor invoked — so a
part already holding a genuine output is never re-executed. -/
theorem processPart_skips_unresolved :
    ∀ (M : Type) (executions : Registry M) (pm : M) (part : Part),
      skipsResolution executions part = true →
      processPart executions pm part = (part, [], []) := by
  intro M executions pm part h
  cases part with
  | text s => rfl
  | dynamicTool tp => rfl
  | tool tp =>
    simp only [skipsResolution, Bool.or_eq_true, Bool.not_eq_true', Bool.and_eq_true] at h
    rcases h with (h | h) | ⟨h1, h2⟩
    · exact processPart_not_registered executions pm tp h
    · exact processPart_not_output_available executions pm tp (by simpa using h)
    · exact processPart_no_sentinel executions pm tp h1 h2

/-- Witness for C3: a part already holding the genuine output
`"22C, sunny"` is left untouched by a resolution pass over scenario A's
registry. -/
theorem processPart_skips_witness :
    processPart scenarioRegA () (.tool genuineOutputPart) = (.tool genuineOutputPart, [], []) :=
  processPart_skips_unresolved Unit scenarioRegA () (.tool genuineOutputPart) rfl

theorem partSimilar_processPart {M : Type} (executions : Registry M) (pm : M) (part : Part) :
    partSimilar part (processPart executions pm part).1 := by
  cases part with
  | text s => exact Or.inl rfl
  | dynamicTool tp => exact Or.inl rfl
  | tool tp =>
    simp only [processPart]
    split
    · split
      · split
        · exact Or.inl rfl
        · exact Or.inr ⟨tp, _, rfl, rfl⟩
        · exact Or.inr ⟨tp, _, rfl, rfl⟩
      · split
        · exact Or.inr ⟨tp, _, rfl, rfl⟩
        · exact Or.inl rfl
    · exact Or.inl rfl

theorem forallTwo_partSimilar_processParts {M : Type} (executions : Registry M) (pm : M)
    (ps : List Part) : List.Forall₂ partSimilar ps (processParts executions pm ps).1 := by
  induction ps with
  | nil => exact List.Forall₂.nil
  | cons p ps ih => exact List.Forall₂.cons (partSimilar_processPart executions pm p) ih

theorem msgSimilar_processMessage {M : Type} (executions : Registry M) (pm : M) (m : Message) :
    msgSimilar m (processMessage executions pm m).1 := by
  cases m with
  | mk i r md parts =>
    cases parts with
    | none => exact ⟨rfl, rfl, rfl, Or.inl rfl⟩
    | some ps =>
      exact ⟨rfl, rfl, rfl,
        Or.inr ⟨ps, (processParts executions pm ps).1, rfl, rfl,
          forallTwo_partSimilar_processParts executions pm ps⟩⟩

/-- C6: the resolver returns a message list of the same length and order as
the input, each message keeping its id, role and metadata, with its part
list related pointwise to the input's: every part is unchanged except that a
resolved tool-call part may carry a replaced `output` field. -/
theorem processToolCalls_preserves_structure {M : Type} (messages : List Message)
    (executions : Registry M) (proj : List Message → M) :
    List.Forall₂ msgSimilar messages (processToolCalls messages executions proj).messages ∧
    (processToolCalls messages executions proj).messages.length = messages.length := by
  have h : ∀ (pm : M) (ms : List Message),
      List.Forall₂ msgSimilar ms (processMessagesList executions pm ms).1 := by
    intro pm ms
    induction ms with
    | nil => exact List.Forall₂.nil
    | cons m ms ih => exact List.Forall₂.cons (msgSimilar_processMessage executions pm m) ih
  have hm := h (proj messages) messages
  exact ⟨hm, hm.length_eq.symm⟩

end AgentPipeline
